import Mathlib

/-! # NeoLED WS2812 driver verification

A shallow embedding of the NeoLED library (`src/include/neoled.h`,
`src/neoled.cpp`): the pixel color model, the WS2812 frame encoder and the
I2S transmission driver state machine.

Machine integers are modelled as `Nat` with an explicit `% 256`
(resp. `% 2 ^ 32`) wherever the C code narrows a wider intermediate value
into a `uint8_t` (resp. `uint32_t`).  Peripheral writes are recorded as a
list of transmitted byte buffers; the I2S adapter itself is external
hardware and is modelled as always accepting the data.
-/

namespace NeoLED

/-- Configuration macro `LED_NUMBER` (default 1). -/
def LED_NUMBER : Nat := 1

/-- Configuration macro `PIXEL_SIZE`: bytes per pixel in the symbol buffer
(4 symbol bytes per channel, 3 channels). -/
def PIXEL_SIZE : Nat := 12

/-- Configuration macro `ZERO_BUFFER`: length of the all-zero reset/trailer
buffer. -/
def ZERO_BUFFER : Nat := 48

/-- Configuration macro `I2S_DO_IO`: default data-out GPIO pin. -/
def I2S_DO_IO : Int := 21

/-- Error codes `neoled_err_t` from `neoled.h`. -/
inductive NeoledErr where
  | NEOLED_OK
  | NEOLED_ERR_INIT
  | NEOLED_ERR_PARAM
  | NEOLED_ERR_NO_MEM
  | NEOLED_ERR_NOT_INIT
  | NEOLED_ERR_I2S
  deriving DecidableEq, Repr

/-- `Pixel` from `neoled.h`: three 8-bit channels, declared in GRB order
(the WS2812 wire order). -/
structure Pixel where
  green : Nat
  red : Nat
  blue : Nat
  deriving DecidableEq, Repr

instance : Inhabited Pixel := ⟨⟨0, 0, 0⟩⟩

/-- All three channels fit in 8 bits, as the C type `uint8_t` guarantees. -/
def Pixel.inRange (p : Pixel) : Prop :=
  p.green < 256 ∧ p.red < 256 ∧ p.blue < 256

instance (p : Pixel) : Decidable p.inRange := by
  unfold Pixel.inRange
  infer_instance

/-- `colorWheel` from `neoled.h`: rainbow color from a hue byte.  Each
channel store narrows the `int` arithmetic result to `uint8_t`. -/
def colorWheel (hue : Nat) : Pixel :=
  if hue < 85 then
    { red := hue * 3 % 256, green := (255 - hue * 3) % 256, blue := 0 }
  else if hue < 170 then
    { red := (255 - (hue - 85) * 3) % 256, green := 0,
      blue := (hue - 85) * 3 % 256 }
  else
    { red := 0, green := (hue - 170) * 3 % 256,
      blue := (255 - (hue - 170) * 3) % 256 }

/-- `hexValue` from `neoled.h`: pack a pixel as `0xRRGGBB` in `uint32_t`. -/
def hexValue (pixel : Pixel) : Nat :=
  ((pixel.red <<< 16) ||| (pixel.green <<< 8) ||| pixel.blue) % 2 ^ 32

/-- `fromHex` from `neoled.h`: unpack a `0xRRGGBB` value into a pixel. -/
def fromHex (hexVal : Nat) : Pixel :=
  { red := hexVal >>> 16 &&& 0xFF
    green := hexVal >>> 8 &&& 0xFF
    blue := hexVal &&& 0xFF }

/-- `blend` from `neoled.h`: per-channel linear interpolation between `a`
and `b`; each channel store narrows the `int` result to `uint8_t`. -/
def blend (a b : Pixel) (blendAmount : Nat) : Pixel :=
  { red := (a.red * (255 - blendAmount) + b.red * blendAmount) / 255 % 256
    green := (a.green * (255 - blendAmount) + b.green * blendAmount) / 255 % 256
    blue := (a.blue * (255 - blendAmount) + b.blue * blendAmount) / 255 % 256 }

/-- `bitpatterns` from `neoled.cpp`: the four WS2812 2-bit timing symbols
for I2S transmission. -/
def bitpatterns : List Nat := [0x88, 0x8e, 0xe8, 0xee]

/-- `pixelToBitPattern` from `neoled.cpp`: scale each channel by
`channel * brightness / 255` (the `(uint8_t)` cast narrows mod 256), then
emit four symbol bytes per channel, green first, then red, then blue,
most-significant 2-bit group first.  Each buffer store narrows the
`uint16_t` table entry to `uint8_t`. -/
def pixelToBitPattern (pixel : Pixel) (brightness : Nat) : List Nat :=
  let r := pixel.red * brightness / 255 % 256
  let g := pixel.green * brightness / 255 % 256
  let b := pixel.blue * brightness / 255 % 256
  [bitpatterns.getD (g >>> 6 &&& 0x03) 0 % 256,
   bitpatterns.getD (g >>> 4 &&& 0x03) 0 % 256,
   bitpatterns.getD (g >>> 2 &&& 0x03) 0 % 256,
   bitpatterns.getD (g &&& 0x03) 0 % 256,
   bitpatterns.getD (r >>> 6 &&& 0x03) 0 % 256,
   bitpatterns.getD (r >>> 4 &&& 0x03) 0 % 256,
   bitpatterns.getD (r >>> 2 &&& 0x03) 0 % 256,
   bitpatterns.getD (r &&& 0x03) 0 % 256,
   bitpatterns.getD (b >>> 6 &&& 0x03) 0 % 256,
   bitpatterns.getD (b >>> 4 &&& 0x03) 0 % 256,
   bitpatterns.getD (b >>> 2 &&& 0x03) 0 % 256,
   bitpatterns.getD (b &&& 0x03) 0 % 256]

/-- The encoding loop of `updateWithBrightness` (`neoled.cpp`), for a frame
of `pixels.length` pixels: pixel `i` fills bytes `i*12 .. i*12+11` of the
symbol buffer. -/
def encodeFrame (pixels : List Pixel) (brightness : Nat) : List Nat :=
  (pixels.map (fun p => pixelToBitPattern p brightness)).flatten

/-! ## Spec-side restatements (for the refinement claims)

These definitions follow the spec's wording (§4.1, §4.2) rather than the
C code; the theorems below compare the code's definitions against them. -/

/-- Spec §4.2: one channel's four symbol bytes, most-significant 2-bit
group first, each group indexing the fixed 4-entry table. -/
def specChannelSymbols (c : Nat) : List Nat :=
  [bitpatterns.getD (c / 64 % 4) 0,
   bitpatterns.getD (c / 16 % 4) 0,
   bitpatterns.getD (c / 4 % 4) 0,
   bitpatterns.getD (c % 4) 0]

/-- Spec §4.2: a pixel's twelve symbol bytes, channels brightness-scaled by
truncating `channel * brightness / 255` and emitted in green-red-blue
order. -/
def specEncodePixel (pixel : Pixel) (brightness : Nat) : List Nat :=
  specChannelSymbols (pixel.green * brightness / 255) ++
    specChannelSymbols (pixel.red * brightness / 255) ++
      specChannelSymbols (pixel.blue * brightness / 255)

/-- Spec §4.2: the symbol buffer of a frame, pixel after pixel. -/
def specEncodeFrame (pixels : List Pixel) (brightness : Nat) : List Nat :=
  (pixels.map (fun p => specEncodePixel p brightness)).flatten

/-- Spec §4.1: `colorWheel` as three linear ramps over the three hue bands,
each ramp `band_offset * 3`, stated without the `uint8_t` stores. -/
def specColorWheel (hue : Nat) : Pixel :=
  if hue < 85 then
    { green := 255 - hue * 3, red := hue * 3, blue := 0 }
  else if hue < 170 then
    { green := 0, red := 255 - (hue - 85) * 3, blue := (hue - 85) * 3 }
  else
    { green := (hue - 170) * 3, red := 0, blue := 255 - (hue - 170) * 3 }

/-! ## Transmission driver (`neoled.cpp` statics and lifecycle API) -/

/-- The driver's process-wide mutable state: the statics of `neoled.cpp`. -/
structure DriverState where
  initialized : Bool
  global_brightness : Nat
  current_gpio_pin : Int
  size_buffer : Nat
  out_buffer : List Nat
  deriving DecidableEq, Repr

/-- The initial values of the statics in `neoled.cpp`. -/
def initialState : DriverState :=
  { initialized := false
    global_brightness := 255
    current_gpio_pin := I2S_DO_IO
    size_buffer := 0
    out_buffer := List.replicate (LED_NUMBER * PIXEL_SIZE) 0 }

/-- Result of a driver call: the returned error code, the new driver state,
and the byte buffers written to the I2S peripheral during the call. -/
abbrev DriverResult := NeoledErr × DriverState × List (List Nat)

/-- `updateWithBrightness` from `neoled.cpp`.  The C loop reads
`pixels[i]` for `i < LED_NUMBER`; a null pixel pointer is modelled as
`none`.  After `init`, `size_buffer = LED_NUMBER * PIXEL_SIZE`, so the
first I2S write transmits the whole symbol buffer, followed by the
`ZERO_BUFFER`-byte all-zero reset trailer.  Both writes are modelled as
accepted by the peripheral. -/
def updateWithBrightness (s : DriverState) (pixels : Option (List Pixel))
    (brightness : Nat) : DriverResult :=
  if !s.initialized then
    (.NEOLED_ERR_NOT_INIT, s, [])
  else
    match pixels with
    | none => (.NEOLED_ERR_PARAM, s, [])
    | some px =>
      let out := encodeFrame ((List.range LED_NUMBER).map
        (fun i => px.getD i default)) brightness
      (.NEOLED_OK, { s with out_buffer := out },
        [out, List.replicate ZERO_BUFFER 0])

/-- `update` from `neoled.cpp`: delegates to `updateWithBrightness` at the
stored global brightness. -/
def update (s : DriverState) (pixels : Option (List Pixel)) : DriverResult :=
  updateWithBrightness s pixels s.global_brightness

/-- `clear` from `neoled.cpp`: transmit an all-off frame at brightness 0. -/
def clear (s : DriverState) : DriverResult :=
  if !s.initialized then
    (.NEOLED_ERR_NOT_INIT, s, [])
  else
    updateWithBrightness s
      (some (List.replicate LED_NUMBER { green := 0, red := 0, blue := 0 })) 0

/-- `initWithPin` from `neoled.cpp`.  Re-entering while already
initialized is a success no-op.  The I2S channel setup is external
hardware, modelled as succeeding; on success the driver clears the strip
and returns `NEOLED_OK` (the result of the internal `clear` is ignored). -/
def initWithPin (s : DriverState) (gpio_pin : Int) : DriverResult :=
  if s.initialized then
    (.NEOLED_OK, s, [])
  else
    let s1 := { s with size_buffer := LED_NUMBER * PIXEL_SIZE
                       current_gpio_pin := gpio_pin
                       initialized := true }
    let c := clear s1
    (.NEOLED_OK, c.2.1, c.2.2)

/-- `init` from `neoled.cpp`: `initWithPin` at the default pin. -/
def init (s : DriverState) : DriverResult :=
  initWithPin s I2S_DO_IO

/-- `destroy` from `neoled.cpp`: no-op success when uninitialized;
otherwise best-effort `clear`, peripheral teardown (external, modelled as
succeeding), and reset of the initialized flag. -/
def destroy (s : DriverState) : DriverResult :=
  if !s.initialized then
    (.NEOLED_OK, s, [])
  else
    let c := clear s
    (.NEOLED_OK, { c.2.1 with initialized := false }, c.2.2)

/-- `isInitialized` from `neoled.cpp`. -/
def isInitialized (s : DriverState) : Bool :=
  s.initialized

/-- `setBrightness` from `neoled.cpp`; the `uint8_t` parameter narrows the
argument mod 256. -/
def setBrightness (s : DriverState) (brightness : Nat) : DriverState :=
  { s with global_brightness := brightness % 256 }

/-- `getBrightness` from `neoled.cpp`. -/
def getBrightness (s : DriverState) : Nat :=
  s.global_brightness

/-! ## Gamma correction (`neoled.cpp`) -/

/-- `gamma22_table` from `neoled.cpp`: the 256-entry lookup table the code
labels "gamma = 2.2". -/
def gamma22_table : List Nat :=
  [0, 0, 0, 0, 0, 0, 0, 0, 0, 0, 0, 0, 0, 0, 0, 0,
   0, 0, 0, 0, 0, 0, 0, 0, 0, 0, 0, 0, 1, 1, 1, 1,
   1, 1, 1, 1, 1, 1, 1, 1, 1, 2, 2, 2, 2, 2, 2, 2,
   2, 3, 3, 3, 3, 3, 3, 3, 4, 4, 4, 4, 4, 5, 5, 5,
   5, 6, 6, 6, 6, 7, 7, 7, 7, 8, 8, 8, 9, 9, 9, 10,
   10, 10, 11, 11, 11, 12, 12, 13, 13, 13, 14, 14, 15, 15, 16, 16,
   17, 17, 18, 18, 19, 19, 20, 20, 21, 21, 22, 22, 23, 24, 24, 25,
   25, 26, 27, 27, 28, 29, 29, 30, 31, 32, 32, 33, 34, 35, 35, 36,
   37, 38, 39, 39, 40, 41, 42, 43, 44, 45, 46, 47, 48, 49, 50, 50,
   51, 52, 54, 55, 56, 57, 58, 59, 60, 61, 62, 63, 64, 66, 67, 68,
   69, 70, 72, 73, 74, 75, 77, 78, 79, 81, 82, 83, 85, 86, 87, 89,
   90, 92, 93, 95, 96, 98, 99, 101, 102, 104, 105, 107, 109, 110, 112, 114,
   115, 117, 119, 120, 122, 124, 126, 127, 129, 131, 133, 135, 137, 138, 140, 142,
   144, 146, 148, 150, 152, 154, 156, 158, 160, 162, 164, 167, 169, 171, 173, 175,
   177, 180, 182, 184, 186, 189, 191, 193, 196, 198, 200, 203, 205, 208, 210, 213,
   215, 218, 220, 223, 225, 228, 231, 233, 236, 239, 241, 244, 247, 249, 252, 255]

/-- The `gamma == 2.2f` branch of `gammaCorrect` (`neoled.cpp`):
per-channel lookup in `gamma22_table`. -/
def gammaCorrectTable (pixel : Pixel) : Pixel :=
  { red := gamma22_table.getD pixel.red 0
    green := gamma22_table.getD pixel.green 0
    blue := gamma22_table.getD pixel.blue 0 }

/-- The mathematical gamma-2.2 value `255 * (c / 255) ^ 2.2` that the
spec's floating-point path computes (before rounding), modelled over the
reals. -/
noncomputable def gammaRef (c : Nat) : ℝ :=
  255 * ((c : ℝ) / 255) ^ (2.2 : ℝ)

/-! ## Helper lemmas -/

lemma bitpatterns_getD_lt (i : Nat) : bitpatterns.getD i 0 < 256 := by
  match i with
  | 0 => decide
  | 1 => decide
  | 2 => decide
  | 3 => decide
  | n + 4 => simp [bitpatterns, List.getD]

lemma and_three_mod (v : Nat) : v &&& 3 = v % 4 := by
  simpa using Nat.and_pow_two_sub_one_eq_mod v 2

lemma scaled_lt {c b : Nat} (hc : c < 256) (hb : b < 256) : c * b / 255 < 256 := by
  have h : c * b ≤ 255 * 255 := Nat.mul_le_mul (by omega) (by omega)
  have h2 : c * b / 255 ≤ 255 * 255 / 255 := Nat.div_le_div_right h
  omega

lemma blend_zero_eq (a b : Pixel) (ha : a.inRange) : blend a b 0 = a := by
  obtain ⟨h1, h2, h3⟩ := ha
  obtain ⟨g, r, bl⟩ := a
  dsimp only at h1 h2 h3
  unfold blend
  simp only [Pixel.mk.injEq]
  refine ⟨?_, ?_, ?_⟩ <;> dsimp only <;> omega

lemma blend_full_eq (a b : Pixel) (hb : b.inRange) : blend a b 255 = b := by
  obtain ⟨h1, h2, h3⟩ := hb
  obtain ⟨g, r, bl⟩ := b
  dsimp only at h1 h2 h3
  unfold blend
  simp only [Pixel.mk.injEq]
  refine ⟨?_, ?_, ?_⟩ <;> dsimp only <;> omega

lemma hexValue_eq (p : Pixel) (hp : p.inRange) :
    hexValue p = 2 ^ 16 * p.red + (2 ^ 8 * p.green + p.blue) := by
  obtain ⟨hg, hr, hb⟩ := hp
  have h1 : 2 ^ 8 * p.green + p.blue = 2 ^ 8 * p.green ||| p.blue :=
    Nat.mul_add_lt_is_or (by omega) p.green
  have h2 : 2 ^ 16 * p.red + (2 ^ 8 * p.green + p.blue) =
      2 ^ 16 * p.red ||| (2 ^ 8 * p.green + p.blue) :=
    Nat.mul_add_lt_is_or (by omega) p.red
  unfold hexValue
  rw [Nat.shiftLeft_eq, Nat.shiftLeft_eq, Nat.mul_comm p.red,
    Nat.mul_comm p.green, Nat.or_assoc, ← h1, ← h2,
    Nat.mod_eq_of_lt (by omega)]

lemma pixelToBitPattern_eq_spec (p : Pixel) (b : Nat) (hp : p.inRange)
    (hb : b < 256) : pixelToBitPattern p b = specEncodePixel p b := by
  obtain ⟨hg, hr, hbl⟩ := hp
  have hmod : ∀ i, bitpatterns.getD i 0 % 256 = bitpatterns.getD i 0 :=
    fun i => Nat.mod_eq_of_lt (bitpatterns_getD_lt i)
  simp only [pixelToBitPattern, specEncodePixel, specChannelSymbols,
    Nat.mod_eq_of_lt (scaled_lt hg hb), Nat.mod_eq_of_lt (scaled_lt hr hb),
    Nat.mod_eq_of_lt (scaled_lt hbl hb), hmod, and_three_mod,
    Nat.shiftRight_eq_div_pow, List.cons_append, List.nil_append]

lemma pixelToBitPattern_length (p : Pixel) (b : Nat) :
    (pixelToBitPattern p b).length = 12 := by
  simp [pixelToBitPattern]

lemma encodeFrame_cons (p : Pixel) (ps : List Pixel) (b : Nat) :
    encodeFrame (p :: ps) b = pixelToBitPattern p b ++ encodeFrame ps b := by
  simp [encodeFrame]

lemma specEncodeFrame_cons (p : Pixel) (ps : List Pixel) (b : Nat) :
    specEncodeFrame (p :: ps) b = specEncodePixel p b ++ specEncodeFrame ps b := by
  simp [specEncodeFrame]

/-! ## Claim theorems -/

/-- C1: for every frame and 8-bit brightness, the encoder emits exactly
`N * 12` symbol bytes, and the buffer agrees with the spec: per pixel the
channels in green-red-blue order, each channel scaled by
`channel * brightness / 255` (truncating) and encoded as 4 symbol bytes,
most-significant 2-bit group first, each group indexing the 4-entry
table. -/
theorem encodeFrame_matches_spec (pixels : List Pixel) (brightness : Nat)
    (hb : brightness < 256) (hp : ∀ p ∈ pixels, p.inRange) :
    (encodeFrame pixels brightness).length = pixels.length * 12 ∧
    encodeFrame pixels brightness = specEncodeFrame pixels brightness := by
  induction pixels with
  | nil => exact ⟨rfl, rfl⟩
  | cons p ps ih =>
    obtain ⟨ihl, ihe⟩ := ih (fun q hq => hp q (List.mem_cons_of_mem p hq))
    constructor
    · rw [encodeFrame_cons, List.length_append, pixelToBitPattern_length,
        ihl, List.length_cons]
      ring
    · rw [encodeFrame_cons, specEncodeFrame_cons, ihe,
        pixelToBitPattern_eq_spec p brightness (hp p (List.mem_cons_self p ps)) hb]

/-- C1 witness: the encoder/spec agreement on a concrete one-pixel frame
at brightness 128. -/
theorem encodeFrame_matches_spec_witness :
    (encodeFrame [{ green := 10, red := 200, blue := 3 }] 128).length =
      ([{ green := 10, red := 200, blue := 3 }] : List Pixel).length * 12 ∧
    encodeFrame [{ green := 10, red := 200, blue := 3 }] 128 =
      specEncodeFrame [{ green := 10, red := 200, blue := 3 }] 128 :=
  encodeFrame_matches_spec [{ green := 10, red := 200, blue := 3 }] 128
    (by decide) (by decide)

/-- C3: while the driver is uninitialized, `update`,
`updateWithBrightness` and `clear` all return `NEOLED_ERR_NOT_INIT`,
perform no peripheral write, and leave the whole driver state unchanged. -/
theorem uninitialized_rejects (s : DriverState) (pixels : Option (List Pixel))
    (brightness : Nat) (h : s.initialized = false) :
    update s pixels = (.NEOLED_ERR_NOT_INIT, s, []) ∧
    updateWithBrightness s pixels brightness = (.NEOLED_ERR_NOT_INIT, s, []) ∧
    clear s = (.NEOLED_ERR_NOT_INIT, s, []) := by
  simp [update, updateWithBrightness, clear, h]

/-- C3 witness: the three calls rejected at the initial (uninitialized)
driver state. -/
theorem uninitialized_rejects_witness :
    update initialState (some [{ green := 9, red := 9, blue := 9 }]) =
      (.NEOLED_ERR_NOT_INIT, initialState, []) ∧
    updateWithBrightness initialState (some [{ green := 9, red := 9, blue := 9 }]) 77 =
      (.NEOLED_ERR_NOT_INIT, initialState, []) ∧
    clear initialState = (.NEOLED_ERR_NOT_INIT, initialState, []) :=
  uninitialized_rejects initialState (some [{ green := 9, red := 9, blue := 9 }]) 77
    (by decide)

/-- C4: from any driver state, calling `init` twice returns `NEOLED_OK`
both times, the second call changes nothing, and the driver ends
initialized; calling `destroy` twice returns `NEOLED_OK` both times, the
second call changes nothing, and the driver ends uninitialized. -/
theorem double_init_destroy_idempotent (s : DriverState) :
    (init s).1 = .NEOLED_OK ∧
    (init (init s).2.1).1 = .NEOLED_OK ∧
    (init (init s).2.1).2.1 = (init s).2.1 ∧
    isInitialized (init (init s).2.1).2.1 = true ∧
    (destroy s).1 = .NEOLED_OK ∧
    (destroy (destroy s).2.1).1 = .NEOLED_OK ∧
    (destroy (destroy s).2.1).2.1 = (destroy s).2.1 ∧
    isInitialized (destroy (destroy s).2.1).2.1 = false := by
  cases h : s.initialized <;>
    simp [init, initWithPin, destroy, clear, updateWithBrightness,
      isInitialized, h]

/-- C5: after `setBrightness 128`, `update` is exactly
`updateWithBrightness` at brightness 128, and in particular it fills the
same symbol buffer and performs the same peripheral writes as
`updateWithBrightness frame 128` from the state before `setBrightness`. -/
theorem update_uses_global_brightness (s : DriverState)
    (pixels : Option (List Pixel)) :
    update (setBrightness s 128) pixels =
      updateWithBrightness (setBrightness s 128) pixels 128 ∧
    (update (setBrightness s 128) pixels).2.1.out_buffer =
      (updateWithBrightness s pixels 128).2.1.out_buffer ∧
    (update (setBrightness s 128) pixels).2.2 =
      (updateWithBrightness s pixels 128).2.2 := by
  refine ⟨?_, ?_, ?_⟩
  · simp [update, setBrightness]
  · cases pixels <;> cases h : s.initialized <;>
      simp [update, updateWithBrightness, setBrightness, h]
  · cases pixels <;> cases h : s.initialized <;>
      simp [update, updateWithBrightness, setBrightness, h]

/-- C9 (code bug evidence): the `gamma == 2.2` lookup-table branch of
`gammaCorrect` maps channel 128 to 37, yet the mathematical gamma-2.2
value `255 * (128/255) ^ 2.2` is at least 50 (it is ≈ 55.98), so the
table disagrees with the gamma-2.2 formula far beyond rounding — the
table actually holds gamma-2.8 data, contradicting the code's own
"gamma = 2.2" label. -/
theorem gamma_table_not_gamma22 :
    (gammaCorrectTable { green := 128, red := 128, blue := 128 }).red = 37 ∧
    50 ≤ gammaRef 128 := by
  constructor
  · decide
  · unfold gammaRef
    rw [show ((128:ℕ):ℝ) = (128:ℝ) by norm_num,
      show (2.2:ℝ) = (11:ℝ)/5 by norm_num]
    have hx : (0:ℝ) ≤ (128:ℝ) / 255 := by norm_num
    have hxp : (0:ℝ) ≤ ((128:ℝ)/255) ^ ((11:ℝ)/5) := Real.rpow_nonneg hx _
    have hpow : (((128:ℝ)/255) ^ ((11:ℝ)/5)) ^ (5:ℕ) =
        ((128:ℝ)/255) ^ (11:ℕ) := by
      rw [← Real.rpow_natCast (((128:ℝ)/255) ^ ((11:ℝ)/5)) 5,
        ← Real.rpow_mul hx, ← Real.rpow_natCast ((128:ℝ)/255) 11]
      norm_num
    have hfive : ((50:ℝ)/255) ^ (5:ℕ) ≤
        (((128:ℝ)/255) ^ ((11:ℝ)/5)) ^ (5:ℕ) := by
      rw [hpow]
      norm_num
    have hkey : (50:ℝ)/255 ≤ ((128:ℝ)/255) ^ ((11:ℝ)/5) :=
      le_of_pow_le_pow_left₀ (by norm_num) hxp hfive
    calc (50:ℝ) = 255 * ((50:ℝ)/255) := by norm_num
      _ ≤ 255 * (((128:ℝ)/255) ^ ((11:ℝ)/5)) :=
          mul_le_mul_of_nonneg_left hkey (by norm_num)

/-- C2: for a single pixel with green `0xFF`, red `0x00`, blue `0x00`
encoded at brightness 255, the 12-byte symbol sequence starts with 4 bytes
equal to the table entry for bit-group `0b11`, followed by 8 bytes equal
to the table entry for bit-group `0b00`. -/
theorem single_green_pixel_symbols :
    pixelToBitPattern { green := 0xFF, red := 0x00, blue := 0x00 } 255 =
      List.replicate 4 (bitpatterns.getD 3 0) ++
        List.replicate 8 (bitpatterns.getD 0 0) := by
  decide

/-- C6: `hexValue` packs the channels as `(red<<16)|(green<<8)|blue` and
`fromHex` unpacks the same way, so for every 8-bit pixel `p`,
`fromHex (hexValue p) = p` exactly. -/
theorem fromHex_hexValue_roundtrip (p : Pixel) (hp : p.inRange) :
    fromHex (hexValue p) = p := by
  have hkey := hexValue_eq p hp
  obtain ⟨hg, hr, hb⟩ := hp
  rw [hkey]
  unfold fromHex
  obtain ⟨g, r, bl⟩ := p
  dsimp only at hg hr hb ⊢
  simp only [Pixel.mk.injEq]
  rw [Nat.shiftRight_eq_div_pow, Nat.shiftRight_eq_div_pow,
    (show (0xFF : Nat) = 2 ^ 8 - 1 from rfl),
    Nat.and_pow_two_sub_one_eq_mod, Nat.and_pow_two_sub_one_eq_mod,
    Nat.and_pow_two_sub_one_eq_mod]
  refine ⟨?_, ?_, ?_⟩ <;> omega

/-- C6 witness: the round trip at the concrete pixel
green 34, red 12, blue 56. -/
theorem fromHex_hexValue_roundtrip_witness :
    fromHex (hexValue { green := 34, red := 12, blue := 56 }) =
      { green := 34, red := 12, blue := 56 } :=
  fromHex_hexValue_roundtrip { green := 34, red := 12, blue := 56 } (by decide)

/-- C7: for 8-bit pixels `a`, `b`, `blend a b 0` is exactly `a`, and
`blend a b 255` differs from `b` by at most 1 per channel (in fact it is
equal, so the distance is 0). -/
theorem blend_endpoints (a b : Pixel) (ha : a.inRange) (hb : b.inRange) :
    blend a b 0 = a ∧
    ((blend a b 255).green : ℤ) - (b.green : ℤ) ≤ 1 ∧
    (b.green : ℤ) - ((blend a b 255).green : ℤ) ≤ 1 ∧
    ((blend a b 255).red : ℤ) - (b.red : ℤ) ≤ 1 ∧
    (b.red : ℤ) - ((blend a b 255).red : ℤ) ≤ 1 ∧
    ((blend a b 255).blue : ℤ) - (b.blue : ℤ) ≤ 1 ∧
    (b.blue : ℤ) - ((blend a b 255).blue : ℤ) ≤ 1 := by
  rw [blend_zero_eq a b ha, blend_full_eq a b hb]
  refine ⟨rfl, ?_, ?_, ?_, ?_, ?_, ?_⟩ <;> omega

/-- C7 witness: the blend endpoints at two concrete pixels. -/
theorem blend_endpoints_witness :
    blend { green := 7, red := 250, blue := 0 } { green := 130, red := 66, blue := 255 } 0 =
      { green := 7, red := 250, blue := 0 } ∧
    ((blend { green := 7, red := 250, blue := 0 } { green := 130, red := 66, blue := 255 } 255).green : ℤ) - (130 : ℤ) ≤ 1 ∧
    ((130 : ℤ)) - ((blend { green := 7, red := 250, blue := 0 } { green := 130, red := 66, blue := 255 } 255).green : ℤ) ≤ 1 ∧
    ((blend { green := 7, red := 250, blue := 0 } { green := 130, red := 66, blue := 255 } 255).red : ℤ) - (66 : ℤ) ≤ 1 ∧
    ((66 : ℤ)) - ((blend { green := 7, red := 250, blue := 0 } { green := 130, red := 66, blue := 255 } 255).red : ℤ) ≤ 1 ∧
    ((blend { green := 7, red := 250, blue := 0 } { green := 130, red := 66, blue := 255 } 255).blue : ℤ) - (255 : ℤ) ≤ 1 ∧
    ((255 : ℤ)) - ((blend { green := 7, red := 250, blue := 0 } { green := 130, red := 66, blue := 255 } 255).blue : ℤ) ≤ 1 :=
  blend_endpoints { green := 7, red := 250, blue := 0 }
    { green := 130, red := 66, blue := 255 } (by decide) (by decide)

/-- C10: for every pixel `a` and 8-bit pixel `b`, `blend a b 255` equals
`b` exactly on every channel: the formula reduces to `b * 255 / 255 = b`,
stronger than the within-1 bound the spec documents. -/
theorem blend_full_amount_exact (a b : Pixel) (hb : b.inRange) :
    blend a b 255 = b :=
  blend_full_eq a b hb

/-- C10 witness: exact full-amount blend at two concrete pixels. -/
theorem blend_full_amount_exact_witness :
    blend { green := 1, red := 2, blue := 3 } { green := 200, red := 100, blue := 0 } 255 =
      { green := 200, red := 100, blue := 0 } :=
  blend_full_amount_exact { green := 1, red := 2, blue := 3 }
    { green := 200, red := 100, blue := 0 } (by decide)

/-- C8: `colorWheel 0` is red 0, green 255, blue 0; `colorWheel 85` is
red 255, green 0, blue 0; and on the whole 8-bit hue range `colorWheel`
computes the spec's three linear `band_offset * 3` ramps over the bands
0-84, 85-169 and 170-255. -/
theorem colorWheel_band_formulas (hue : Nat) (h : hue < 256) :
    colorWheel 0 = { green := 255, red := 0, blue := 0 } ∧
    colorWheel 85 = { green := 0, red := 255, blue := 0 } ∧
    colorWheel hue = specColorWheel hue := by
  refine ⟨by decide, by decide, ?_⟩
  unfold colorWheel specColorWheel
  by_cases h85 : hue < 85
  · rw [if_pos h85, if_pos h85,
      Nat.mod_eq_of_lt (show hue * 3 < 256 by omega),
      Nat.mod_eq_of_lt (show 255 - hue * 3 < 256 by omega)]
  · by_cases h170 : hue < 170
    · rw [if_neg h85, if_neg h85, if_pos h170, if_pos h170,
        Nat.mod_eq_of_lt (show 255 - (hue - 85) * 3 < 256 by omega),
        Nat.mod_eq_of_lt (show (hue - 85) * 3 < 256 by omega)]
    · rw [if_neg h85, if_neg h85, if_neg h170, if_neg h170,
        Nat.mod_eq_of_lt (show (hue - 170) * 3 < 256 by omega),
        Nat.mod_eq_of_lt (show 255 - (hue - 170) * 3 < 256 by omega)]

/-- C8 witness: the band formulas at the concrete hue 200. -/
theorem colorWheel_band_formulas_witness :
    colorWheel 0 = { green := 255, red := 0, blue := 0 } ∧
    colorWheel 85 = { green := 0, red := 255, blue := 0 } ∧
    colorWheel 200 = specColorWheel 200 :=
  colorWheel_band_formulas 200 (by decide)

end NeoLED
